import Mathlib

/-!
A shallow embedding of the storage layer of trivy-java-db
(`pkg/db/sqlite.go`, `pkg/db/mysql.go`, `pkg/db/db.go`, `cmd/trivy-java-db/main.go`),
together with proofs about its insert/select operations.

The relational state is modelled as explicit lists of rows; SQL statements
become pure functions on that state.  Both backends share one insert/select
model because their SQL differs only in dialect
(`INSERT OR IGNORE`/`ON CONFLICT(sha1) DO NOTHING` for SQLite versus
`INSERT IGNORE` for MySQL, same skip-on-duplicate semantics); where the two
backends genuinely differ (`Init`) they get separate models.
-/

/-- Modelled from the spec: the `types.Index` record of `pkg/types`
(missing from the sources; §3 of the spec: `{group_id, artifact_id, version,
sha1 (byte digest), archive_type}`).  `ArchiveType` is a string-valued enum;
`sha1` is the raw byte content of the digest. -/
structure Index where
  groupID : String
  artifactID : String
  version : String
  sha1 : List Nat
  archiveType : String
deriving DecidableEq, Repr

/-- One row of the `artifacts(id, group_id, artifact_id)` table. -/
structure ArtifactRow where
  id : Nat
  group_id : String
  artifact_id : String
deriving DecidableEq, Repr

/-- One row of the `indices(artifact_id, version, sha1, archive_type)` table;
`artifact_id` is the foreign key into `artifacts`, `none` modelling SQL NULL
(the scalar subquery used at insert time yields NULL when no artifact matches). -/
structure IndexRow where
  artifact_id : Option Nat
  version : String
  sha1 : List Nat
  archive_type : String
deriving DecidableEq, Repr

/-- The database state: the two tables plus the next surrogate id the engine
will assign (`id INTEGER PRIMARY KEY` / `AUTO_INCREMENT`). -/
structure DBState where
  artifacts : List ArtifactRow
  indices : List IndexRow
  nextId : Nat
deriving DecidableEq, Repr

deriving instance DecidableEq for Except

/-- The state produced by `Init` on an empty target: both tables empty. -/
def emptyDB : DBState := ⟨[], [], 1⟩

/-- Whether the `artifacts` table already has a row for `(g, a)` —
the condition under which `INSERT OR IGNORE` / `INSERT IGNORE` skips the row
(unique index `artifacts_idx` on `(artifact_id, group_id)`). -/
def pairMem (s : DBState) (g a : String) : Bool :=
  s.artifacts.any (fun r => r.group_id == g && r.artifact_id == a)

/-- One value row of the multi-row `INSERT OR IGNORE INTO artifacts(group_id,
artifact_id) VALUES ...` of `insertArtifacts`: skipped when the pair is
already present, otherwise appended with the next surrogate id. -/
def insertArtifactRow (s : DBState) (idx : Index) : DBState :=
  if pairMem s idx.groupID idx.artifactID then s
  else
    { artifacts := s.artifacts ++ [⟨s.nextId, idx.groupID, idx.artifactID⟩],
      indices := s.indices,
      nextId := s.nextId + 1 }

/-- Embeds `Sqlite.insertArtifacts` / `Mysql.insertArtifacts`
(`sqlite.go:102-115`, `mysql.go:77-90`): the engine processes the value rows
of the single `INSERT OR IGNORE` statement left to right. -/
def insertArtifacts (s : DBState) (batch : List Index) : DBState :=
  batch.foldl insertArtifactRow s

/-- The scalar subquery `(SELECT id FROM artifacts WHERE group_id=? AND
artifact_id=?)`: the first matching row's id, SQL NULL (`none`) when absent. -/
def lookupArtifactId (s : DBState) (g a : String) : Option Nat :=
  (s.artifacts.find? (fun r => r.group_id == g && r.artifact_id == a)).map
    (fun r => r.id)

/-- Whether some `indices` row already carries this sha1 — the condition under
which `ON CONFLICT(sha1) DO NOTHING` / `INSERT IGNORE` drops the insert
(unique index `indices_sha1_idx`). -/
def sha1Mem (s : DBState) (h : List Nat) : Bool :=
  s.indices.any (fun r => r.sha1 == h)

/-- Embeds one iteration of the per-index insert loop of `InsertIndexes`
(`sqlite.go:85-97`, `mysql.go:60-72`): `INSERT INTO indices VALUES
((SELECT id FROM artifacts WHERE ...), ?, ?, ?)` with the sha1 conflict
silently ignored. -/
def insertIndexRow (s : DBState) (idx : Index) : DBState :=
  if sha1Mem s idx.sha1 then s
  else
    { artifacts := s.artifacts,
      indices := s.indices ++
        [⟨lookupArtifactId s idx.groupID idx.artifactID,
          idx.version, idx.sha1, idx.archiveType⟩],
      nextId := s.nextId }

/-- Embeds `Sqlite.InsertIndexes` / `Mysql.InsertIndexes`
(`sqlite.go:71-100`, `mysql.go:46-75`) on the success path: empty batch is a
no-op; otherwise all artifact pairs are inserted-or-ignored first, then each
index row in batch order.  The function is total: duplicate pairs and
duplicate sha1 values are skipped, never reported as errors. -/
def insertIndexes (s : DBState) (batch : List Index) : DBState :=
  if batch.isEmpty then s
  else batch.foldl insertIndexRow (insertArtifacts s batch)

/-- The row list of `FROM indices i JOIN artifacts a ON a.id = i.artifact_id`,
projected to `(a.group_id, a.artifact_id, i.version, i.sha1, i.archive_type)`
as every select of `sqlite.go`/`mysql.go` does; a NULL foreign key joins
nothing. -/
def joinRows (s : DBState) : List Index :=
  s.indices.flatMap (fun i =>
    s.artifacts.filterMap (fun a =>
      if i.artifact_id == some a.id then
        some ⟨a.group_id, a.artifact_id, i.version, i.sha1, i.archive_type⟩
      else none))

/-- The contribution of one `indices` row to the join — `joinRows s` is
exactly `s.indices.flatMap (joinOne s.artifacts)`. -/
def joinOne (arts : List ArtifactRow) (i : IndexRow) : List Index :=
  arts.filterMap (fun a =>
    if i.artifact_id == some a.id then
      some ⟨a.group_id, a.artifact_id, i.version, i.sha1, i.archive_type⟩
    else none)

/-- The zero value of `types.Index`, which the Go `Scan` leaves untouched on
`sql.ErrNoRows`. -/
def zeroIndex : Index := ⟨"", "", "", [], ""⟩

/-- The value of one hexadecimal digit character, `none` when the character is
not a hex digit — as `encoding/hex` accepts `0-9`, `a-f`, `A-F`. -/
def hexDigit (c : Char) : Option Nat :=
  if '0' ≤ c ∧ c ≤ '9' then some (c.toNat - '0'.toNat)
  else if 'a' ≤ c ∧ c ≤ 'f' then some (c.toNat - 'a'.toNat + 10)
  else if 'A' ≤ c ∧ c ≤ 'F' then some (c.toNat - 'A'.toNat + 10)
  else none

/-- Embeds `hex.DecodeString` on a character list: bytes are decoded pairwise;
an odd-length input or a non-hex character is an error (`none`). -/
def hexDecodeChars : List Char → Option (List Nat)
  | [] => some []
  | [_] => none
  | hi :: lo :: rest =>
    match hexDigit hi, hexDigit lo, hexDecodeChars rest with
    | some h, some l, some bs => some ((16 * h + l) :: bs)
    | _, _, _ => none

/-- Embeds `hex.DecodeString` (`encoding/hex`), as called by
`SelectIndexBySha1`. -/
def hexDecode (s : String) : Option (List Nat) :=
  hexDecodeChars s.toList

/-- Embeds `Sqlite.SelectIndexBySha1` / `Mysql.SelectIndexBySha1`
(`sqlite.go:117-134`, `mysql.go:92-109`): decode the hex argument (an invalid
encoding is returned as an error), then take the first row of the join with
`WHERE i.sha1 = ?`; `sql.ErrNoRows` is swallowed, leaving the zero-value
record.  Queries never modify the database state, which the embedding
expresses by being a pure function of `s`. -/
def selectIndexBySha1 (s : DBState) (sha1 : String) : Except String Index :=
  match hexDecode sha1 with
  | none => .error "sha1 decode error"
  | some bytes =>
    match (joinRows s).find? (fun r => r.sha1 == bytes) with
    | some r => .ok r
    | none => .ok zeroIndex

/-- Embeds `Sqlite.SelectIndexByArtifactIDAndGroupID` /
`Mysql.SelectIndexByArtifactIDAndGroupID` (`sqlite.go:136-149`,
`mysql.go:111-124`): first row of the join with
`WHERE a.group_id = ? AND a.artifact_id = ?`, zero value when absent. -/
def selectIndexByArtifactIDAndGroupID (s : DBState) (artifactID groupID : String) :
    Except String Index :=
  match (joinRows s).find? (fun r => r.groupID == groupID && r.artifactID == artifactID) with
  | some r => .ok r
  | none => .ok zeroIndex

/-- The `f_id` subquery of `SelectIndexesByArtifactIDAndFileType`:
`SELECT a.id, a.group_id, a.artifact_id FROM indices i JOIN artifacts a ON
a.id = i.artifact_id WHERE a.artifact_id = ? AND i.version = ? AND
i.archive_type = ?` — one row per matching (index row, artifact row) pair. -/
def fIdRows (s : DBState) (artifactID version fileType : String) : List ArtifactRow :=
  s.indices.flatMap (fun i =>
    s.artifacts.filterMap (fun a =>
      if i.artifact_id == some a.id && a.artifact_id == artifactID &&
          i.version == version && i.archive_type == fileType then some a
      else none))

/-- Embeds `Sqlite.SelectIndexesByArtifactIDAndFileType` /
`Mysql.SelectIndexesByArtifactIDAndFileType` (`sqlite.go:152-173`,
`mysql.go:127-148`): all rows of `indices i JOIN f_id ON f_id.id =
i.artifact_id`, projected through `f_id`'s group/artifact columns. -/
def selectIndexesByArtifactIDAndFileType (s : DBState)
    (artifactID version fileType : String) : List Index :=
  s.indices.flatMap (fun i =>
    (fIdRows s artifactID version fileType).filterMap (fun f =>
      if i.artifact_id == some f.id then
        some ⟨f.group_id, f.artifact_id, i.version, i.sha1, i.archive_type⟩
      else none))

/-! ### Transactional execution of `InsertIndexes` (for the atomicity claim)

The Go code runs every statement of `InsertIndexes` inside one `sql.Tx`
(`Begin` … `defer tx.Rollback()` … `tx.Commit()`).  Uncommitted transaction
state is invisible outside the transaction; `Rollback` discards it and the
deferred `Rollback` after a successful `Commit` is a no-op.  To reason about
failures, the execution is parameterised by an oracle `fail : Nat → Bool`
telling which numbered engine call fails: call 0 is `Begin`, call 1 the
`insertArtifacts` statement, calls 2 … `1 + n` the per-index inserts, and
call `2 + n` the `Commit`. -/

/-- The per-index insert loop followed by `Commit`, run inside the
transaction: `s0` is the database state visible if the transaction rolls
back, `tx` the transaction-local state, `k` the number of the next engine
call.  A failing call returns the error with the pre-transaction state
(the deferred `tx.Rollback()`); after a clean loop, a failing `Commit` also
rolls back, and a successful one publishes the transaction state. -/
def insertLoopTx (s0 : DBState) (fail : Nat → Bool) :
    DBState → Nat → List Index → DBState × Option String
  | tx, k, [] => if fail k then (s0, some "commit error") else (tx, none)
  | tx, k, idx :: rest =>
    if fail k then (s0, some "unable to insert to indices table")
    else insertLoopTx s0 fail (insertIndexRow tx idx) (k + 1) rest

/-- Embeds `Sqlite.InsertIndexes` / `Mysql.InsertIndexes` with explicit
failure behaviour of each engine call: returns the database state visible
after the call together with the error returned to the caller (`none` on
success). -/
def insertIndexesTx (s : DBState) (batch : List Index) (fail : Nat → Bool) :
    DBState × Option String :=
  if batch.isEmpty then (s, none)
  else if fail 0 then (s, some "begin error")
  else if fail 1 then (s, some "unable to insert to artifacts table")
  else insertLoopTx s fail (insertArtifacts s batch) 2 batch

/-! ### `Init` of the two backends (DDL against an existing schema) -/

/-- The part of the target schema that decides whether a `CREATE` statement
conflicts: the names of the tables and of the secondary indexes present. -/
structure SchemaState where
  tables : List String
  indexes : List String
deriving DecidableEq, Repr

/-- `CREATE TABLE t (...)` without `IF NOT EXISTS`: errors when a table named
`t` already exists (whatever its shape), otherwise records the table. -/
def createTable (s : SchemaState) (t : String) : Except String SchemaState :=
  if t ∈ s.tables then .error ("table " ++ t ++ " already exists")
  else .ok { s with tables := s.tables ++ [t] }

/-- `CREATE TABLE IF NOT EXISTS t (...)` (MySQL dialect): silently keeps the
existing table — of whatever shape — when the name is taken. -/
def createTableIfNotExists (s : SchemaState) (t : String) : SchemaState :=
  if t ∈ s.tables then s
  else { s with tables := s.tables ++ [t] }

/-- `CREATE [UNIQUE] INDEX i ON ...`: errors when an index named `i` already
exists. -/
def createIndex (s : SchemaState) (i : String) : Except String SchemaState :=
  if i ∈ s.indexes then .error ("index " ++ i ++ " already exists")
  else .ok { s with indexes := s.indexes ++ [i] }

/-- Embeds `Sqlite.Init` (`sqlite.go:32-50`): plain `CREATE TABLE` for
`artifacts` and `indices`, then `CREATE UNIQUE INDEX artifacts_idx`,
`CREATE INDEX indices_artifact_idx`, `CREATE UNIQUE INDEX indices_sha1_idx`;
the first failing statement aborts with its error. -/
def sqliteInit (s : SchemaState) : Except String SchemaState :=
  match createTable s "artifacts" with
  | .error e => .error e
  | .ok s1 =>
    match createTable s1 "indices" with
    | .error e => .error e
    | .ok s2 =>
      match createIndex s2 "artifacts_idx" with
      | .error e => .error e
      | .ok s3 =>
        match createIndex s3 "indices_artifact_idx" with
        | .error e => .error e
        | .ok s4 => createIndex s4 "indices_sha1_idx"

/-- Embeds `Mysql.Init` (`mysql.go:27-36`): `CREATE TABLE IF NOT EXISTS` for
`artifacts` and `indices` with all constraints declared inline — no statement
can fail because a table of that name already exists. -/
def mysqlInit (s : SchemaState) : Except String SchemaState :=
  .ok (createTableIfNotExists (createTableIfNotExists s "artifacts") "indices")

/-! ### The `build` command's wipe-then-open sequence (paths and files) -/

/-- `dbFileName` of `pkg/db/db.go`. -/
def dbFileName : String := "trivy-java.db"

/-- `filepath.Join` on two clean relative components. -/
def joinPath (a b : String) : String := a ++ "/" ++ b

/-- Embeds `db.path` (`db.go:26-28`): the embedded database file inside a
directory. -/
def dbFilePath (cacheDir : String) : String := joinPath cacheDir dbFileName

/-- Embeds `os.RemoveAll p` on a file system modelled as the list of existing
paths: removes `p` itself and everything below it. -/
def removeAll (fs : List String) (p : String) : List String :=
  fs.filter (fun q => !(q == p || (p ++ "/").toList.isPrefixOf q.toList))

/-- Embeds `db.Reset` (`db.go:30-32`): removes the embedded database file
under the given directory. -/
def reset (fs : List String) (cacheDir : String) : List String :=
  removeAll fs (dbFilePath cacheDir)

/-- The path that the `build` command (`main.go:97-116`) wipes:
`db.Reset(cacheDir)` acts on `cacheDir`, so `cacheDir ++ "/trivy-java.db"`. -/
def buildWipedPath (cacheDir : String) : String := dbFilePath cacheDir

/-- The directory `build` passes to `db.New` and logs as "Database path":
`filepath.Join(cacheDir, "db")`. -/
def buildDbDir (cacheDir : String) : String := joinPath cacheDir "db"

/-- The file the SQLite backend actually opens during `build`: `db.New`
(`db.go:34-49`) dispatches to `NewSqlite(conf.SqliteDBConfig.DBPath)`, so it
is the `--db-path` flag value, independent of `cacheDir`. -/
def buildOpenedPath (dbPath : String) : String := dbPath

/-- The file-system state after `build`'s wipe step (`db.Reset(cacheDir)`),
before the engine is opened and initialised. -/
def buildAfterReset (fs : List String) (cacheDir : String) : List String :=
  reset fs cacheDir

/-! ### Derived predicates used in the claim statements -/

/-- The `(group_id, artifact_id)` pairs of the `artifacts` table, in row
order. -/
def artifactPairs (s : DBState) : List (String × String) :=
  s.artifacts.map (fun r => (r.group_id, r.artifact_id))

/-- The §3 invariant: at most one `artifacts` row per `(group_id,
artifact_id)` pair. -/
def artifactsUnique (s : DBState) : Prop := (artifactPairs s).Nodup

instance (s : DBState) : Decidable (artifactsUnique s) :=
  List.nodupDecidable (artifactPairs s)

/-- The `artifacts` rows carrying a given `(group_id, artifact_id)` pair. -/
def pairRows (s : DBState) (g a : String) : List ArtifactRow :=
  s.artifacts.filter (fun r => r.group_id == g && r.artifact_id == a)

/-- Structural well-formedness the engine maintains: surrogate ids are
pairwise distinct and below the next id to assign, and every non-NULL
foreign key of `indices` references an existing `artifacts` row. -/
def wfDB (s : DBState) : Prop :=
  s.artifacts.Pairwise (fun x y => x.id ≠ y.id) ∧
  (∀ a ∈ s.artifacts, a.id < s.nextId) ∧
  (∀ i ∈ s.indices, i.artifact_id = none ∨ ∃ a ∈ s.artifacts, i.artifact_id = some a.id)

instance (s : DBState) : Decidable (wfDB s) := by
  unfold wfDB; infer_instance

/-! ### Concrete records used by the claim instances -/

/-- Concrete instance of C1: two singleton batches sharing sha1 `[10]`. -/
def w1A : Index := ⟨"g1", "a1", "1.0", [10], "jar"⟩

/-- Second batch's record for the C1 witness: same sha1, other fields differ. -/
def w1B : Index := ⟨"g2", "a2", "2.0", [10], "war"⟩

/-- A target schema in which a table named `artifacts` already exists —
"the schema already exists in a conflicting shape". -/
def conflictSchema : SchemaState := ⟨["artifacts"], []⟩

/-- Two records sharing `(group_id, artifact_id)` with distinct versions and
sha1 values, for the C10 witness. -/
def w10A : Index := ⟨"g", "a", "1.0", [1], "jar"⟩

/-- Second record of the ambiguous pair for the C10 witness. -/
def w10B : Index := ⟨"g", "a", "2.0", [2], "jar"⟩

/-- A release already in the database: same `(group_id, artifact_id)` pair as
`c9New`, earlier version, different sha1. -/
def c9Old : Index := ⟨"org.example", "lib", "0.9", List.replicate 20 1, "jar"⟩

/-- The record inserted afterwards in the C9 scenario: fresh 20-byte sha1. -/
def c9New : Index := ⟨"org.example", "lib", "1.0", List.replicate 20 2, "jar"⟩

/-! ### Basic lemmas about the insert operations -/

theorem insertArtifactRow_indices (s : DBState) (i : Index) :
    (insertArtifactRow s i).indices = s.indices := by
  unfold insertArtifactRow; split <;> rfl

theorem insertArtifacts_indices (s : DBState) (B : List Index) :
    (insertArtifacts s B).indices = s.indices := by
  induction B generalizing s with
  | nil => rfl
  | cons j rest ih =>
    simp only [insertArtifacts, List.foldl_cons] at *
    rw [ih, insertArtifactRow_indices]

theorem insertIndexRow_artifacts (s : DBState) (i : Index) :
    (insertIndexRow s i).artifacts = s.artifacts := by
  unfold insertIndexRow; split <;> rfl

theorem insertIndexRow_nextId (s : DBState) (i : Index) :
    (insertIndexRow s i).nextId = s.nextId := by
  unfold insertIndexRow; split <;> rfl

theorem foldl_insertIndexRow_artifacts (s : DBState) (B : List Index) :
    (B.foldl insertIndexRow s).artifacts = s.artifacts := by
  induction B generalizing s with
  | nil => rfl
  | cons j rest ih =>
    simp only [List.foldl_cons]
    rw [ih, insertIndexRow_artifacts]

theorem foldl_insertIndexRow_nextId (s : DBState) (B : List Index) :
    (B.foldl insertIndexRow s).nextId = s.nextId := by
  induction B generalizing s with
  | nil => rfl
  | cons j rest ih =>
    simp only [List.foldl_cons]
    rw [ih, insertIndexRow_nextId]

theorem sha1Mem_insertIndexRow_mono (s : DBState) (i : Index) (h : List Nat)
    (hm : sha1Mem s h = true) : sha1Mem (insertIndexRow s i) h = true := by
  unfold insertIndexRow
  split
  · exact hm
  · simp only [sha1Mem, List.any_append] at *
    simp [hm]

theorem sha1Mem_foldl_insertIndexRow_mono (s : DBState) (B : List Index) (h : List Nat)
    (hm : sha1Mem s h = true) : sha1Mem (B.foldl insertIndexRow s) h = true := by
  induction B generalizing s with
  | nil => exact hm
  | cons j rest ih =>
    simp only [List.foldl_cons]
    exact ih _ (sha1Mem_insertIndexRow_mono s j h hm)

theorem sha1Mem_insertIndexRow_self (s : DBState) (i : Index) :
    sha1Mem (insertIndexRow s i) i.sha1 = true := by
  unfold insertIndexRow
  split
  · assumption
  · simp [sha1Mem, List.any_append]

theorem sha1Mem_of_mem_foldl_insertIndexRow (s : DBState) (B : List Index) (i : Index)
    (hi : i ∈ B) : sha1Mem (B.foldl insertIndexRow s) i.sha1 = true := by
  induction B generalizing s with
  | nil => cases hi
  | cons j rest ih =>
    simp only [List.foldl_cons]
    rcases List.mem_cons.mp hi with rfl | hmem
    · exact sha1Mem_foldl_insertIndexRow_mono _ rest _ (sha1Mem_insertIndexRow_self s i)
    · exact ih _ hmem

theorem filter_sha1_foldl_insertIndexRow_stable (s : DBState) (B : List Index) (h : List Nat)
    (hm : sha1Mem s h = true) :
    (B.foldl insertIndexRow s).indices.filter (fun r => r.sha1 == h) =
      s.indices.filter (fun r => r.sha1 == h) := by
  induction B generalizing s with
  | nil => rfl
  | cons j rest ih =>
    simp only [List.foldl_cons]
    rw [ih _ (sha1Mem_insertIndexRow_mono s j h hm)]
    unfold insertIndexRow
    split
    · rfl
    · next hskip =>
      simp only [List.filter_append]
      have hne : (j.sha1 == h) = false := by
        by_contra hcon
        have : j.sha1 = h := by
          have := Bool.not_eq_false _ |>.mp hcon
          exact beq_iff_eq.mp this
        rw [this] at hskip
        exact hskip hm
      simp [hne]

theorem filter_sha1_first_wins (s : DBState) (B : List Index) (i : Index) (h : List Nat)
    (hfresh : sha1Mem s h = false)
    (hfind : B.find? (fun j => j.sha1 == h) = some i) :
    ∃ aid, (B.foldl insertIndexRow s).indices.filter (fun r => r.sha1 == h) =
      [⟨aid, i.version, i.sha1, i.archiveType⟩] := by
  induction B generalizing s with
  | nil => simp at hfind
  | cons j rest ih =>
    simp only [List.foldl_cons]
    rw [List.find?_cons] at hfind
    by_cases pj : (j.sha1 == h) = true
    · rw [pj] at hfind
      injection hfind with hji
      subst hji
      have hjs : j.sha1 = h := beq_iff_eq.mp pj
      have hskip : sha1Mem s j.sha1 = false := by rw [hjs]; exact hfresh
      have hrow : insertIndexRow s j =
          { artifacts := s.artifacts,
            indices := s.indices ++
              [⟨lookupArtifactId s j.groupID j.artifactID, j.version, j.sha1, j.archiveType⟩],
            nextId := s.nextId } := by
        unfold insertIndexRow
        rw [hskip]
        simp
      refine ⟨lookupArtifactId s j.groupID j.artifactID, ?_⟩
      rw [filter_sha1_foldl_insertIndexRow_stable _ rest h]
      · rw [hrow]
        simp only [List.filter_append]
        have hall : s.indices.filter (fun r => r.sha1 == h) = [] := by
          rw [List.filter_eq_nil_iff]
          intro r hr
          intro hcon
          have : s.indices.any (fun r => r.sha1 == h) = true := by
            rw [List.any_eq_true]; exact ⟨r, hr, hcon⟩
          have hh : sha1Mem s h = true := this
          rw [hh] at hfresh; cases hfresh
        rw [hall]
        simp [pj, hjs]
      · rw [hrow]
        simp only [sha1Mem, List.any_append]
        simp [pj, hjs]
    · rw [Bool.not_eq_true] at pj
      rw [pj] at hfind
      have hfresh2 : sha1Mem (insertIndexRow s j) h = false := by
        unfold insertIndexRow
        split
        · exact hfresh
        · simp only [sha1Mem, List.any_append] at *
          simp [hfresh, pj]
      exact ih _ hfresh2 hfind

/-! ### Lemmas about `insertArtifacts` -/

theorem pairMem_insertArtifactRow_mono (s : DBState) (i : Index) (g a : String)
    (hm : pairMem s g a = true) : pairMem (insertArtifactRow s i) g a = true := by
  unfold insertArtifactRow
  split
  · exact hm
  · simp only [pairMem, List.any_append] at *
    simp [hm]

theorem pairMem_insertArtifacts_mono (s : DBState) (B : List Index) (g a : String)
    (hm : pairMem s g a = true) : pairMem (insertArtifacts s B) g a = true := by
  induction B generalizing s with
  | nil => exact hm
  | cons j rest ih =>
    simp only [insertArtifacts, List.foldl_cons] at *
    exact ih _ (pairMem_insertArtifactRow_mono s j g a hm)

theorem pairMem_insertArtifactRow_self (s : DBState) (i : Index) :
    pairMem (insertArtifactRow s i) i.groupID i.artifactID = true := by
  unfold insertArtifactRow
  split
  · assumption
  · simp [pairMem, List.any_append]

theorem pairMem_of_mem_insertArtifacts (s : DBState) (B : List Index) (i : Index)
    (hi : i ∈ B) : pairMem (insertArtifacts s B) i.groupID i.artifactID = true := by
  induction B generalizing s with
  | nil => cases hi
  | cons j rest ih =>
    simp only [insertArtifacts, List.foldl_cons] at *
    rcases List.mem_cons.mp hi with rfl | hmem
    · exact pairMem_insertArtifacts_mono _ rest _ _ (pairMem_insertArtifactRow_self s i)
    · exact ih _ hmem

theorem insertArtifacts_eq_self (s : DBState) (B : List Index)
    (hall : ∀ i ∈ B, pairMem s i.groupID i.artifactID = true) :
    insertArtifacts s B = s := by
  induction B with
  | nil => rfl
  | cons j rest ih =>
    simp only [insertArtifacts, List.foldl_cons] at *
    have hj : insertArtifactRow s j = s := by
      unfold insertArtifactRow
      rw [hall j (List.mem_cons_self j rest)]
      simp
    rw [hj]
    exact ih (fun i hi => hall i (List.mem_cons_of_mem j hi))

theorem foldl_insertIndexRow_eq_self (s : DBState) (B : List Index)
    (hall : ∀ i ∈ B, sha1Mem s i.sha1 = true) :
    B.foldl insertIndexRow s = s := by
  induction B with
  | nil => rfl
  | cons j rest ih =>
    simp only [List.foldl_cons]
    have hj : insertIndexRow s j = s := by
      unfold insertIndexRow
      rw [hall j (List.mem_cons_self j rest)]
      simp
    rw [hj]
    exact ih (fun i hi => hall i (List.mem_cons_of_mem j hi))

theorem pairMem_congr_artifacts (s t : DBState) (g a : String)
    (h : s.artifacts = t.artifacts) : pairMem s g a = pairMem t g a := by
  unfold pairMem; rw [h]

theorem sha1Mem_congr_indices (s t : DBState) (h : s.indices = t.indices)
    (x : List Nat) : sha1Mem s x = sha1Mem t x := by
  unfold sha1Mem; rw [h]

/-- Inserting the same batch a second time leaves the state literally
unchanged: every artifact pair and every sha1 of the batch is already
present, so each statement of the second call is ignored. -/
theorem insertIndexes_insertIndexes_self (s : DBState) (B : List Index) :
    insertIndexes (insertIndexes s B) B = insertIndexes s B := by
  by_cases hB : B.isEmpty
  · simp [insertIndexes, hB]
  · have h1 : insertIndexes s B = B.foldl insertIndexRow (insertArtifacts s B) := by
      simp [insertIndexes, hB]
    have hpairs : ∀ i ∈ B, pairMem (insertIndexes s B) i.groupID i.artifactID = true := by
      intro i hi
      rw [h1]
      rw [pairMem_congr_artifacts _ (insertArtifacts s B) _ _
        (foldl_insertIndexRow_artifacts _ B)]
      exact pairMem_of_mem_insertArtifacts s B i hi
    have hsha : ∀ i ∈ B, sha1Mem (insertIndexes s B) i.sha1 = true := by
      intro i hi
      rw [h1]
      exact sha1Mem_of_mem_foldl_insertIndexRow _ B i hi
    have harts : insertArtifacts (insertIndexes s B) B = insertIndexes s B :=
      insertArtifacts_eq_self _ B hpairs
    calc insertIndexes (insertIndexes s B) B
        = B.foldl insertIndexRow (insertArtifacts (insertIndexes s B) B) := by
          simp [insertIndexes, hB]
      _ = B.foldl insertIndexRow (insertIndexes s B) := by rw [harts]
      _ = insertIndexes s B := foldl_insertIndexRow_eq_self _ B hsha

/-! ### Claim C1 -/

/-- C1: when batch `B1` is inserted before batch `B2` and each contains an
Index with the same sha1 (`i1` being the first such record of `B1`, the sha1
not yet present in the database), the single `indices` row carrying that sha1
after both inserts is `B1`'s record — `B2`'s duplicate is silently dropped,
the row is never overwritten (`insertIndexes` is total, so no error is
reported). -/
theorem c1_first_batch_wins_on_duplicate_sha1 (s : DBState) (B1 B2 : List Index)
    (i1 i2 : Index)
    (h1 : B1.find? (fun j => j.sha1 == i1.sha1) = some i1)
    (h2 : i2 ∈ B2) (hsha : i2.sha1 = i1.sha1)
    (hfresh : sha1Mem s i1.sha1 = false) :
    ∃ aid,
      (insertIndexes s B1).indices.filter (fun r => r.sha1 == i1.sha1) =
        [⟨aid, i1.version, i1.sha1, i1.archiveType⟩] ∧
      (insertIndexes (insertIndexes s B1) B2).indices.filter (fun r => r.sha1 == i1.sha1) =
        [⟨aid, i1.version, i1.sha1, i1.archiveType⟩] := by
  have hB1 : B1.isEmpty = false := by
    cases B1 with
    | nil => simp at h1
    | cons x xs => rfl
  have hB2 : B2.isEmpty = false := by
    cases B2 with
    | nil => cases h2
    | cons x xs => rfl
  have h1def : insertIndexes s B1 = B1.foldl insertIndexRow (insertArtifacts s B1) := by
    simp [insertIndexes, hB1]
  have hfresh1 : sha1Mem (insertArtifacts s B1) i1.sha1 = false := by
    rw [sha1Mem_congr_indices _ s (insertArtifacts_indices s B1)]
    exact hfresh
  obtain ⟨aid, hfilter⟩ := filter_sha1_first_wins (insertArtifacts s B1) B1 i1 i1.sha1 hfresh1 h1
  rw [← h1def] at hfilter
  refine ⟨aid, hfilter, ?_⟩
  have hrowmem : (⟨aid, i1.version, i1.sha1, i1.archiveType⟩ : IndexRow) ∈
      (insertIndexes s B1).indices := by
    have : (⟨aid, i1.version, i1.sha1, i1.archiveType⟩ : IndexRow) ∈
        (insertIndexes s B1).indices.filter (fun r => r.sha1 == i1.sha1) := by
      rw [hfilter]; exact List.mem_singleton.mpr rfl
    exact (List.mem_filter.mp this).1
  have hmem1 : sha1Mem (insertIndexes s B1) i1.sha1 = true := by
    rw [sha1Mem, List.any_eq_true]
    exact ⟨_, hrowmem, by simp⟩
  have h2def : insertIndexes (insertIndexes s B1) B2 =
      B2.foldl insertIndexRow (insertArtifacts (insertIndexes s B1) B2) := by
    simp [insertIndexes, hB2]
  rw [h2def]
  rw [filter_sha1_foldl_insertIndexRow_stable]
  · rw [List.filter_congr]
    · rw [← List.filter_congr (fun r _ => rfl)]
      calc (insertArtifacts (insertIndexes s B1) B2).indices.filter
            (fun r => r.sha1 == i1.sha1)
          = (insertIndexes s B1).indices.filter (fun r => r.sha1 == i1.sha1) := by
            rw [insertArtifacts_indices]
        _ = [⟨aid, i1.version, i1.sha1, i1.archiveType⟩] := hfilter
    · intro r _; rfl
  · rw [sha1Mem_congr_indices _ (insertIndexes s B1)
      (insertArtifacts_indices (insertIndexes s B1) B2)]
    exact hmem1

theorem c1_first_batch_wins_on_duplicate_sha1_witness :
    ([w1A].find? (fun j => j.sha1 == w1A.sha1) = some w1A) ∧
    w1B ∈ [w1B] ∧ w1B.sha1 = w1A.sha1 ∧ sha1Mem emptyDB w1A.sha1 = false ∧
    ∃ aid,
      (insertIndexes emptyDB [w1A]).indices.filter (fun r => r.sha1 == w1A.sha1) =
        [⟨aid, w1A.version, w1A.sha1, w1A.archiveType⟩] ∧
      (insertIndexes (insertIndexes emptyDB [w1A]) [w1B]).indices.filter
          (fun r => r.sha1 == w1A.sha1) =
        [⟨aid, w1A.version, w1A.sha1, w1A.archiveType⟩] :=
  ⟨by decide, by decide, by decide, by decide,
    c1_first_batch_wins_on_duplicate_sha1 emptyDB [w1A] [w1B] w1A w1B
      (by decide) (by decide) (by decide) (by decide)⟩

/-! ### Claim C2 -/

/-- C2: inserting the same batch twice in succession yields a database whose
observable results through `SelectIndexBySha1`,
`SelectIndexByArtifactIDAndGroupID` and `SelectIndexesByArtifactIDAndFileType`
are identical to inserting it once (indeed the state itself is unchanged by
the second call). -/
theorem c2_double_insert_same_query_results (s : DBState) (B : List Index) :
    (∀ q, selectIndexBySha1 (insertIndexes (insertIndexes s B) B) q =
        selectIndexBySha1 (insertIndexes s B) q) ∧
    (∀ aID gID,
      selectIndexByArtifactIDAndGroupID (insertIndexes (insertIndexes s B) B) aID gID =
        selectIndexByArtifactIDAndGroupID (insertIndexes s B) aID gID) ∧
    (∀ aID ver ft,
      selectIndexesByArtifactIDAndFileType (insertIndexes (insertIndexes s B) B) aID ver ft =
        selectIndexesByArtifactIDAndFileType (insertIndexes s B) aID ver ft) := by
  rw [insertIndexes_insertIndexes_self]
  exact ⟨fun _ => rfl, fun _ _ => rfl, fun _ _ _ => rfl⟩

/-! ### Claim C4 -/

theorem pair_mem_artifactPairs (s : DBState) (g a : String) :
    (g, a) ∈ artifactPairs s ↔ ∃ r ∈ s.artifacts, r.group_id = g ∧ r.artifact_id = a := by
  unfold artifactPairs
  simp only [List.mem_map, Prod.mk.injEq]

theorem pairMem_iff_exists (s : DBState) (g a : String) :
    pairMem s g a = true ↔ ∃ r ∈ s.artifacts, r.group_id = g ∧ r.artifact_id = a := by
  unfold pairMem
  rw [List.any_eq_true]
  constructor
  · rintro ⟨r, hr, hp⟩
    rw [Bool.and_eq_true, beq_iff_eq, beq_iff_eq] at hp
    exact ⟨r, hr, hp⟩
  · rintro ⟨r, hr, hg, ha⟩
    exact ⟨r, hr, by rw [Bool.and_eq_true, beq_iff_eq, beq_iff_eq]; exact ⟨hg, ha⟩⟩

theorem artifactsUnique_insertArtifactRow (s : DBState) (i : Index)
    (h : artifactsUnique s) : artifactsUnique (insertArtifactRow s i) := by
  unfold insertArtifactRow
  split
  · exact h
  · next habs =>
    unfold artifactsUnique at *
    have : artifactPairs
        { artifacts := s.artifacts ++ [⟨s.nextId, i.groupID, i.artifactID⟩],
          indices := s.indices, nextId := s.nextId + 1 } =
        artifactPairs s ++ [(i.groupID, i.artifactID)] := by
      unfold artifactPairs
      simp
    rw [this, List.nodup_append]
    refine ⟨h, List.nodup_singleton _, ?_⟩
    intro p hp hp1
    rw [List.mem_singleton] at hp1
    subst hp1
    rw [pair_mem_artifactPairs] at hp
    rw [Bool.not_eq_true] at habs
    rw [← pairMem_iff_exists] at hp
    rw [hp] at habs
    cases habs

theorem artifactsUnique_insertArtifacts (s : DBState) (B : List Index)
    (h : artifactsUnique s) : artifactsUnique (insertArtifacts s B) := by
  induction B generalizing s with
  | nil => exact h
  | cons j rest ih =>
    simp only [insertArtifacts, List.foldl_cons] at *
    exact ih _ (artifactsUnique_insertArtifactRow s j h)

theorem artifactsUnique_congr (s t : DBState) (h : s.artifacts = t.artifacts) :
    artifactsUnique s ↔ artifactsUnique t := by
  unfold artifactsUnique artifactPairs
  rw [h]

theorem artifactsUnique_insertIndexes (s : DBState) (B : List Index)
    (h : artifactsUnique s) : artifactsUnique (insertIndexes s B) := by
  by_cases hB : B.isEmpty
  · simpa [insertIndexes, hB] using h
  · have : insertIndexes s B = B.foldl insertIndexRow (insertArtifacts s B) := by
      simp [insertIndexes, hB]
    rw [this]
    rw [artifactsUnique_congr _ (insertArtifacts s B) (foldl_insertIndexRow_artifacts _ B)]
    exact artifactsUnique_insertArtifacts s B h

theorem pairRows_insertArtifactRow_stable (s : DBState) (i : Index) (g a : String)
    (hm : pairMem s g a = true) :
    pairRows (insertArtifactRow s i) g a = pairRows s g a := by
  unfold insertArtifactRow
  split
  · rfl
  · next habs =>
    unfold pairRows
    simp only [List.filter_append, List.filter_cons, List.filter_nil]
    have hnew : (i.groupID == g && i.artifactID == a) = false := by
      by_contra hcon
      rw [Bool.not_eq_false, Bool.and_eq_true, beq_iff_eq, beq_iff_eq] at hcon
      obtain ⟨hg, ha⟩ := hcon
      rw [hg, ha] at habs
      exact habs hm
    simp [hnew]

theorem pairRows_insertArtifacts_stable (s : DBState) (B : List Index) (g a : String)
    (hm : pairMem s g a = true) :
    pairRows (insertArtifacts s B) g a = pairRows s g a := by
  induction B generalizing s with
  | nil => rfl
  | cons j rest ih =>
    simp only [insertArtifacts, List.foldl_cons] at *
    rw [ih _ (pairMem_insertArtifactRow_mono s j g a hm)]
    exact pairRows_insertArtifactRow_stable s j g a hm

theorem pairRows_congr_artifacts (s t : DBState) (g a : String)
    (h : s.artifacts = t.artifacts) : pairRows s g a = pairRows t g a := by
  unfold pairRows; rw [h]

/-- C4: for every sequence of `InsertIndexes` calls starting from the freshly
initialised database, the `artifacts` table never holds two rows for one
`(group_id, artifact_id)` pair; and inserting any batch into a state already
holding a pair leaves that pair's rows untouched (a no-op for the pair —
`insertIndexes` is total, so never an error). -/
theorem c4_at_most_one_artifact_row_per_pair (Bs : List (List Index)) :
    artifactsUnique (Bs.foldl insertIndexes emptyDB) ∧
    ∀ s B g a, pairMem s g a = true →
      pairRows (insertIndexes s B) g a = pairRows s g a := by
  constructor
  · have gen : ∀ (L : List (List Index)) (s : DBState), artifactsUnique s →
        artifactsUnique (L.foldl insertIndexes s) := by
      intro L
      induction L with
      | nil => intro s hs; exact hs
      | cons b rest ih =>
        intro s hs
        simp only [List.foldl_cons]
        exact ih _ (artifactsUnique_insertIndexes s b hs)
    exact gen Bs emptyDB (by decide)
  · intro s B g a hm
    by_cases hB : B.isEmpty
    · simp [insertIndexes, hB]
    · have : insertIndexes s B = B.foldl insertIndexRow (insertArtifacts s B) := by
        simp [insertIndexes, hB]
      rw [this]
      rw [pairRows_congr_artifacts _ (insertArtifacts s B) g a
        (foldl_insertIndexRow_artifacts _ B)]
      exact pairRows_insertArtifacts_stable s B g a hm

theorem c4_at_most_one_artifact_row_per_pair_witness :
    pairMem (insertIndexes emptyDB [w1A]) "g1" "a1" = true ∧
    pairRows (insertIndexes (insertIndexes emptyDB [w1A]) [w1A, w1A]) "g1" "a1" =
      pairRows (insertIndexes emptyDB [w1A]) "g1" "a1" :=
  ⟨by decide,
    (c4_at_most_one_artifact_row_per_pair []).2 (insertIndexes emptyDB [w1A])
      [w1A, w1A] "g1" "a1" (by decide)⟩

/-! ### Claim C5 -/

theorem insertLoopTx_cases (s0 : DBState) (fail : Nat → Bool) (rest : List Index) :
    ∀ tx k, insertLoopTx s0 fail tx k rest = (rest.foldl insertIndexRow tx, none) ∨
      ∃ e, insertLoopTx s0 fail tx k rest = (s0, some e) := by
  induction rest with
  | nil =>
    intro tx k
    by_cases h : fail k
    · exact Or.inr ⟨"commit error", by simp [insertLoopTx, h]⟩
    · exact Or.inl (by simp [insertLoopTx, h])
  | cons idx rest ih =>
    intro tx k
    by_cases h : fail k
    · exact Or.inr ⟨"unable to insert to indices table", by simp [insertLoopTx, h]⟩
    · have : insertLoopTx s0 fail tx k (idx :: rest) =
          insertLoopTx s0 fail (insertIndexRow tx idx) (k + 1) rest := by
        simp [insertLoopTx, h]
      rw [this, List.foldl_cons]
      exact ih (insertIndexRow tx idx) (k + 1)

/-- C5: for every non-empty batch and every pattern of engine-call failures,
`InsertIndexes` is atomic — either no call fails and the visible database
state carries every effect of the batch, or the transaction is rolled back,
the visible state is exactly the pre-call state, and the error is returned. -/
theorem c5_insert_indexes_atomic (s : DBState) (batch : List Index) (fail : Nat → Bool)
    (hne : batch ≠ []) :
    insertIndexesTx s batch fail = (insertIndexes s batch, none) ∨
    ∃ e, insertIndexesTx s batch fail = (s, some e) := by
  have hB : batch.isEmpty = false := by
    cases batch with
    | nil => exact absurd rfl hne
    | cons x xs => rfl
  by_cases h0 : fail 0
  · exact Or.inr ⟨"begin error", by simp [insertIndexesTx, hB, h0]⟩
  · by_cases h1 : fail 1
    · exact Or.inr ⟨"unable to insert to artifacts table", by simp [insertIndexesTx, hB, h0, h1]⟩
    · have htx : insertIndexesTx s batch fail =
          insertLoopTx s fail (insertArtifacts s batch) 2 batch := by
        simp [insertIndexesTx, hB, h0, h1]
      have hins : insertIndexes s batch =
          batch.foldl insertIndexRow (insertArtifacts s batch) := by
        simp [insertIndexes, hB]
      rw [htx, hins]
      exact insertLoopTx_cases s fail batch (insertArtifacts s batch) 2

theorem c5_insert_indexes_atomic_witness :
    ([w1A] ≠ []) ∧
    (insertIndexesTx emptyDB [w1A] (fun _ => false) = (insertIndexes emptyDB [w1A], none) ∨
      ∃ e, insertIndexesTx emptyDB [w1A] (fun _ => false) = (emptyDB, some e)) :=
  ⟨by decide, c5_insert_indexes_atomic emptyDB [w1A] (fun _ => false) (by decide)⟩

/-! ### Claim C6 -/

theorem joinRows_sha1_of_mem (s : DBState) (r : Index) (hr : r ∈ joinRows s) :
    ∃ i ∈ s.indices, r.sha1 = i.sha1 := by
  unfold joinRows at hr
  rw [List.mem_flatMap] at hr
  obtain ⟨i, hi, hmem⟩ := hr
  rw [List.mem_filterMap] at hmem
  obtain ⟨a, _, heq⟩ := hmem
  split at heq
  · injection heq with heq2
    subst heq2
    exact ⟨i, hi, rfl⟩
  · cases heq

/-- C6: `SelectIndexBySha1` on a string that is not valid hex returns the
decode error to the caller (the query is a pure function of the state, so the
database is unchanged); on valid hex whose bytes no `indices` row carries, it
returns the zero-value record and no error. -/
theorem c6_select_by_sha1_error_handling (s : DBState) :
    (∀ q, hexDecode q = none → selectIndexBySha1 s q = .error "sha1 decode error") ∧
    (∀ q bytes, hexDecode q = some bytes → (∀ r ∈ s.indices, r.sha1 ≠ bytes) →
      selectIndexBySha1 s q = .ok zeroIndex) := by
  constructor
  · intro q hq
    unfold selectIndexBySha1
    rw [hq]
  · intro q bytes hq habs
    have hnone : (joinRows s).find? (fun r => r.sha1 == bytes) = none := by
      rw [List.find?_eq_none]
      intro r hr
      obtain ⟨i, hi, hsha⟩ := joinRows_sha1_of_mem s r hr
      simp only [beq_eq_false_iff_ne, ne_eq, Bool.not_eq_true]
      rw [hsha]
      exact habs i hi
    have hstep : selectIndexBySha1 s q =
        match (joinRows s).find? (fun r => r.sha1 == bytes) with
        | some r => .ok r
        | none => .ok zeroIndex := by
      unfold selectIndexBySha1
      rw [hq]
    rw [hstep, hnone]

theorem c6_select_by_sha1_error_handling_witness :
    (hexDecode "zz" = none ∧
      selectIndexBySha1 emptyDB "zz" = .error "sha1 decode error") ∧
    (hexDecode "0a" = some [10] ∧
      selectIndexBySha1 emptyDB "0a" = .ok zeroIndex) :=
  ⟨⟨by decide, (c6_select_by_sha1_error_handling emptyDB).1 "zz" (by decide)⟩,
    ⟨by decide, (c6_select_by_sha1_error_handling emptyDB).2 "0a" [10] (by decide) (by decide)⟩⟩

/-! ### Claim C7 -/

/-- C7 is false: against a target already holding a table named `artifacts`,
`Sqlite.Init` returns an error but `Mysql.Init` silently succeeds
(`CREATE TABLE IF NOT EXISTS`) — the backends do not behave identically and
the MySQL backend does not return an error. -/
theorem c7_counterexample :
    sqliteInit conflictSchema = .error "table artifacts already exists" ∧
    mysqlInit conflictSchema = .ok ⟨["artifacts", "indices"], []⟩ := by decide

/-- C7 amended: when a table named `artifacts` already exists at the target,
`Sqlite.Init` returns an error, while `Mysql.Init` always succeeds without
reporting a conflict; the two backends differ in this respect. -/
theorem c7_amended_init_divergence (s : SchemaState)
    (h : "artifacts" ∈ s.tables) :
    (∃ e, sqliteInit s = .error e) ∧ (∃ t, mysqlInit s = .ok t) := by
  constructor
  · refine ⟨"table artifacts already exists", ?_⟩
    have h1 : createTable s "artifacts" = .error "table artifacts already exists" := by
      unfold createTable
      rw [if_pos h]
      rfl
    unfold sqliteInit
    rw [h1]
  · exact ⟨_, rfl⟩

theorem c7_amended_init_divergence_witness :
    ("artifacts" ∈ conflictSchema.tables) ∧
    ((∃ e, sqliteInit conflictSchema = .error e) ∧
      (∃ t, mysqlInit conflictSchema = .ok t)) :=
  ⟨by decide, c7_amended_init_divergence conflictSchema (by decide)⟩

/-! ### Claim C3 -/

/-- C3 is contradicted by the code: during `build` (`main.go:97-116`),
`db.Reset(cacheDir)` removes `cacheDir/trivy-java.db`, while the storage
engine subsequently opens `NewSqlite(conf.SqliteDBConfig.DBPath)` — the
`--db-path` flag value.  At the configuration that places the database file
under the logged database directory `cacheDir/db`, the wiped path differs
from the opened path, and a pre-existing database file at the opened path
survives the wipe, so the build does not start from an empty database
(SQLite's `Init` then even fails on the existing tables). -/
theorem c3_reset_misses_opened_database :
    buildWipedPath "cache" ≠ buildOpenedPath (joinPath (buildDbDir "cache") dbFileName) ∧
    buildAfterReset [joinPath (buildDbDir "cache") dbFileName] "cache" =
      [joinPath (buildDbDir "cache") dbFileName] := by decide

/-! ### Claim C10 -/

/-- C10: when at least two distinct joined rows carry the same
`(group_id, artifact_id)` pair, `SelectIndexByArtifactIDAndGroupID` still
returns a single record with no error — one of the matching rows (`QueryRow`
takes the first row; the statement leaves which one unspecified) — and by its
return type it can never yield more than one row or signal ambiguity. -/
theorem c10_select_by_pair_returns_single_row (s : DBState) (g a : String)
    (r1 r2 : Index)
    (h1 : r1 ∈ joinRows s) (h2 : r2 ∈ joinRows s) (hne : r1 ≠ r2)
    (hp1 : r1.groupID = g ∧ r1.artifactID = a)
    (hp2 : r2.groupID = g ∧ r2.artifactID = a) :
    ∃ r, selectIndexByArtifactIDAndGroupID s a g = .ok r ∧
      r ∈ joinRows s ∧ r.groupID = g ∧ r.artifactID = a := by
  cases hfind : (joinRows s).find? (fun r => r.groupID == g && r.artifactID == a) with
  | none =>
    exfalso
    rw [List.find?_eq_none] at hfind
    apply hfind r1 h1
    simp [hp1.1, hp1.2]
  | some r =>
    refine ⟨r, ?_, List.mem_of_find?_eq_some hfind, ?_⟩
    · unfold selectIndexByArtifactIDAndGroupID
      rw [hfind]
    · have hp := List.find?_some hfind
      rw [Bool.and_eq_true, beq_iff_eq, beq_iff_eq] at hp
      exact hp

theorem c10_select_by_pair_returns_single_row_witness :
    (w10A ∈ joinRows (insertIndexes emptyDB [w10A, w10B]) ∧
      w10B ∈ joinRows (insertIndexes emptyDB [w10A, w10B]) ∧
      w10A ≠ w10B ∧
      (w10A.groupID = "g" ∧ w10A.artifactID = "a") ∧
      (w10B.groupID = "g" ∧ w10B.artifactID = "a")) ∧
    ∃ r, selectIndexByArtifactIDAndGroupID (insertIndexes emptyDB [w10A, w10B]) "a" "g" =
        .ok r ∧
      r ∈ joinRows (insertIndexes emptyDB [w10A, w10B]) ∧
      r.groupID = "g" ∧ r.artifactID = "a" :=
  ⟨⟨by decide, by decide, by decide, by decide, by decide⟩,
    c10_select_by_pair_returns_single_row (insertIndexes emptyDB [w10A, w10B]) "g" "a"
      w10A w10B (by decide) (by decide) (by decide) (by decide) (by decide)⟩

/-! ### Claim C8 -/

theorem mem_fIdRows (s : DBState) (aID ver ft : String) (a : ArtifactRow) :
    a ∈ fIdRows s aID ver ft ↔
      a ∈ s.artifacts ∧ a.artifact_id = aID ∧
        ∃ i2 ∈ s.indices, i2.artifact_id = some a.id ∧ i2.version = ver ∧
          i2.archive_type = ft := by
  unfold fIdRows
  rw [List.mem_flatMap]
  constructor
  · rintro ⟨i, hi, hmem⟩
    rw [List.mem_filterMap] at hmem
    obtain ⟨b, hb, heq⟩ := hmem
    split at heq
    · next hcond =>
      injection heq with heq
      subst heq
      simp only [Bool.and_eq_true, beq_iff_eq] at hcond
      obtain ⟨⟨⟨hfk, haid⟩, hver⟩, hft⟩ := hcond
      exact ⟨hb, haid, i, hi, hfk, hver, hft⟩
    · cases heq
  · rintro ⟨ha, haid, i2, hi2, hfk, hver, hft⟩
    refine ⟨i2, hi2, ?_⟩
    rw [List.mem_filterMap]
    refine ⟨a, ha, ?_⟩
    simp [hfk, haid, hver, hft]

/-- C8: a record is in the result of `SelectIndexesByArtifactIDAndFileType`
exactly when it is one of the joined rows of an artifact that (a) has the
queried `artifact_id` and (b) owns at least one `indices` row with the
queried version and archive type — every index row of every such artifact is
returned, regardless of its own version/type, so two distinct groups that
each published the queried artifact-id/version/type (with distinct sha1
values) both contribute their rows. -/
theorem c8_select_by_artifact_and_filetype_membership (s : DBState)
    (aID ver ft : String) (x : Index) :
    x ∈ selectIndexesByArtifactIDAndFileType s aID ver ft ↔
      ∃ i ∈ s.indices, ∃ a ∈ s.artifacts,
        i.artifact_id = some a.id ∧ a.artifact_id = aID ∧
        (∃ i2 ∈ s.indices, i2.artifact_id = some a.id ∧ i2.version = ver ∧
          i2.archive_type = ft) ∧
        x = ⟨a.group_id, a.artifact_id, i.version, i.sha1, i.archive_type⟩ := by
  unfold selectIndexesByArtifactIDAndFileType
  rw [List.mem_flatMap]
  constructor
  · rintro ⟨i, hi, hmem⟩
    rw [List.mem_filterMap] at hmem
    obtain ⟨f, hf, heq⟩ := hmem
    rw [mem_fIdRows] at hf
    obtain ⟨hfmem, hfa, href⟩ := hf
    split at heq
    · next hcond =>
      injection heq with heq
      subst heq
      rw [beq_iff_eq] at hcond
      exact ⟨i, hi, f, hfmem, hcond, hfa, href, rfl⟩
    · cases heq
  · rintro ⟨i, hi, a, ha, hfk, haid, href, rfl⟩
    refine ⟨i, hi, ?_⟩
    rw [List.mem_filterMap]
    refine ⟨a, ?_, ?_⟩
    · rw [mem_fIdRows]
      exact ⟨ha, haid, href⟩
    · simp [hfk]

/-! ### Claim C9 -/

theorem find?_append_of_none {α : Type} (l1 l2 : List α) (p : α → Bool)
    (h : l1.find? p = none) : (l1 ++ l2).find? p = l2.find? p := by
  induction l1 with
  | nil => rfl
  | cons x xs ih =>
    cases hp : p x with
    | true =>
      rw [List.find?_cons_of_pos _ hp] at h
      cases h
    | false =>
      rw [List.find?_cons_of_neg _ (by simp [hp])] at h
      rw [List.cons_append, List.find?_cons_of_neg _ (by simp [hp])]
      exact ih h

theorem flatMap_congr_mem {α β : Type} (l : List α) (f g : α → List β)
    (h : ∀ x ∈ l, f x = g x) : l.flatMap f = l.flatMap g := by
  induction l with
  | nil => rfl
  | cons x xs ih =>
    simp only [List.flatMap_cons]
    rw [h x (List.mem_cons_self x xs), ih (fun y hy => h y (List.mem_cons_of_mem x hy))]

theorem filterMap_join_single (arts : List ArtifactRow) (a0 : ArtifactRow)
    (f : ArtifactRow → Index)
    (hmem : a0 ∈ arts) (huniq : arts.Pairwise (fun x y => x.id ≠ y.id)) :
    arts.filterMap (fun b => if some a0.id == some b.id then some (f b) else none) =
      [f a0] := by
  induction arts with
  | nil => cases hmem
  | cons b rest ih =>
    rw [List.pairwise_cons] at huniq
    obtain ⟨hhead, htail⟩ := huniq
    simp only [List.filterMap_cons]
    rcases List.mem_cons.mp hmem with rfl | hmem2
    · have hc : (some a0.id == some a0.id) = true := by simp
      rw [hc]
      have hnil : rest.filterMap
          (fun b => if some a0.id == some b.id then some (f b) else none) = [] := by
        rw [List.filterMap_eq_nil_iff]
        intro y hy
        have hcy : (some a0.id == some y.id) = false := by
          rw [beq_eq_false_iff_ne]
          intro hcon
          exact hhead y hy (Option.some.inj hcon)
        rw [hcy]
        simp
      simp [hnil]
      exact fun y hy => hhead y hy
    · have hcb : (some a0.id == some b.id) = false := by
        rw [beq_eq_false_iff_ne]
        intro hcon
        exact hhead a0 hmem2 (Option.some.inj hcon).symm
      rw [hcb]
      simpa using ih hmem2 htail

theorem joinRows_eq_flatMap_joinOne (s : DBState) :
    joinRows s = s.indices.flatMap (joinOne s.artifacts) := rfl

theorem joinOne_append_fresh (arts : List ArtifactRow) (newA : ArtifactRow)
    (i : IndexRow) (hfresh : i.artifact_id ≠ some newA.id) :
    joinOne (arts ++ [newA]) i = joinOne arts i := by
  unfold joinOne
  rw [List.filterMap_append]
  have hc : (i.artifact_id == some newA.id) = false := by
    rw [beq_eq_false_iff_ne]
    exact hfresh
  have hsingle : List.filterMap (fun a =>
      if i.artifact_id == some a.id then
        some (⟨a.group_id, a.artifact_id, i.version, i.sha1, i.archive_type⟩ : Index)
      else none) [newA] = [] := by
    rw [List.filterMap_cons, hc]
    rfl
  rw [hsingle, List.append_nil]

/-- After the artifact insert-or-ignore step, some artifact row carries
`idx`'s pair, the scalar lookup subquery resolves to its id, the surrogate
ids stay pairwise distinct, and the pre-existing index rows join exactly as
before. -/
theorem insertArtifactRow_setup (s : DBState) (idx : Index) (hwf : wfDB s) :
    ∃ aRow : ArtifactRow,
      aRow.group_id = idx.groupID ∧
      aRow.artifact_id = idx.artifactID ∧
      aRow ∈ (insertArtifactRow s idx).artifacts ∧
      lookupArtifactId (insertArtifactRow s idx) idx.groupID idx.artifactID =
        some aRow.id ∧
      (insertArtifactRow s idx).artifacts.Pairwise (fun x y => x.id ≠ y.id) ∧
      (∀ i ∈ s.indices, joinOne (insertArtifactRow s idx).artifacts i =
        joinOne s.artifacts i) := by
  obtain ⟨hids, hbound, href⟩ := hwf
  by_cases hp : pairMem s idx.groupID idx.artifactID = true
  · have hself : insertArtifactRow s idx = s := by
      unfold insertArtifactRow
      rw [hp]
      simp
    rw [hself]
    have hsome : ∃ r : ArtifactRow, s.artifacts.find?
        (fun r => r.group_id == idx.groupID && r.artifact_id == idx.artifactID) = some r := by
      cases hfind : s.artifacts.find?
          (fun r => r.group_id == idx.groupID && r.artifact_id == idx.artifactID) with
      | some r => exact ⟨r, rfl⟩
      | none =>
        exfalso
        rw [List.find?_eq_none] at hfind
        rw [pairMem, List.any_eq_true] at hp
        obtain ⟨r, hr, hpred⟩ := hp
        exact hfind r hr hpred
    obtain ⟨r, hfind⟩ := hsome
    have hpred := List.find?_some hfind
    rw [Bool.and_eq_true, beq_iff_eq, beq_iff_eq] at hpred
    refine ⟨r, hpred.1, hpred.2, List.mem_of_find?_eq_some hfind, ?_, hids, fun _ _ => rfl⟩
    unfold lookupArtifactId
    rw [hfind]
    rfl
  · rw [Bool.not_eq_true] at hp
    have hnone : s.artifacts.find?
        (fun r => r.group_id == idx.groupID && r.artifact_id == idx.artifactID) = none := by
      rw [List.find?_eq_none]
      intro r hr
      rw [pairMem] at hp
      rw [List.any_eq_false] at hp
      exact hp r hr
    have hnew : insertArtifactRow s idx =
        { artifacts := s.artifacts ++ [⟨s.nextId, idx.groupID, idx.artifactID⟩],
          indices := s.indices, nextId := s.nextId + 1 } := by
      unfold insertArtifactRow
      rw [hp]
      simp
    rw [hnew]
    refine ⟨⟨s.nextId, idx.groupID, idx.artifactID⟩, rfl, rfl, ?_, ?_, ?_, ?_⟩
    · exact List.mem_append_right _ (List.mem_singleton.mpr rfl)
    · show (((s.artifacts ++ [(⟨s.nextId, idx.groupID, idx.artifactID⟩ : ArtifactRow)]).find?
          (fun r => r.group_id == idx.groupID && r.artifact_id == idx.artifactID)).map
          (fun r => r.id)) = some s.nextId
      rw [find?_append_of_none _ _ _ hnone, List.find?_cons_of_pos _ (by simp)]
      rfl
    · show (s.artifacts ++ [(⟨s.nextId, idx.groupID, idx.artifactID⟩ : ArtifactRow)]).Pairwise
        (fun x y => x.id ≠ y.id)
      rw [List.pairwise_append]
      refine ⟨hids, List.pairwise_singleton _ _, ?_⟩
      intro x hx y hy
      rw [List.mem_singleton] at hy
      subst hy
      exact Nat.ne_of_lt (hbound x hx)
    · intro i hi
      show joinOne (s.artifacts ++ [(⟨s.nextId, idx.groupID, idx.artifactID⟩ : ArtifactRow)]) i =
        joinOne s.artifacts i
      apply joinOne_append_fresh
      intro hcon
      rcases href i hi with hn | ⟨b, hb, hsome⟩
      · rw [hn] at hcon
        cases hcon
      · rw [hsome] at hcon
        have hbid : b.id = s.nextId := Option.some.inj hcon
        have hlt := hbound b hb
        rw [hbid] at hlt
        exact Nat.lt_irrefl _ hlt

theorem wfDB_insertArtifactRow (s : DBState) (idx : Index) (h : wfDB s) :
    wfDB (insertArtifactRow s idx) := by
  obtain ⟨hids, hbound, href⟩ := h
  by_cases hp : pairMem s idx.groupID idx.artifactID = true
  · have hself : insertArtifactRow s idx = s := by
      unfold insertArtifactRow
      rw [hp]
      simp
    rw [hself]
    exact ⟨hids, hbound, href⟩
  · rw [Bool.not_eq_true] at hp
    have hnew : insertArtifactRow s idx =
        { artifacts := s.artifacts ++ [⟨s.nextId, idx.groupID, idx.artifactID⟩],
          indices := s.indices, nextId := s.nextId + 1 } := by
      unfold insertArtifactRow
      rw [hp]
      simp
    rw [hnew]
    refine ⟨?_, ?_, ?_⟩
    · show (s.artifacts ++ [(⟨s.nextId, idx.groupID, idx.artifactID⟩ : ArtifactRow)]).Pairwise
        (fun x y => x.id ≠ y.id)
      rw [List.pairwise_append]
      refine ⟨hids, List.pairwise_singleton _ _, ?_⟩
      intro x hx y hy
      rw [List.mem_singleton] at hy
      subst hy
      exact Nat.ne_of_lt (hbound x hx)
    · intro b hb
      rcases List.mem_append.mp hb with hold | hnewb
      · exact Nat.lt_succ_of_lt (hbound b hold)
      · rw [List.mem_singleton] at hnewb
        subst hnewb
        exact Nat.lt_succ_self _
    · intro i hi
      rcases href i hi with hn | ⟨b, hb, he⟩
      · exact Or.inl hn
      · exact Or.inr ⟨b, List.mem_append_left _ hb, he⟩

theorem wfDB_insertArtifacts (s : DBState) (B : List Index) (h : wfDB s) :
    wfDB (insertArtifacts s B) := by
  induction B generalizing s with
  | nil => exact h
  | cons j rest ih =>
    simp only [insertArtifacts, List.foldl_cons] at *
    exact ih _ (wfDB_insertArtifactRow s j h)

theorem wfDB_insertIndexRow (s : DBState) (idx : Index) (h : wfDB s) :
    wfDB (insertIndexRow s idx) := by
  obtain ⟨hids, hbound, href⟩ := h
  unfold insertIndexRow
  split
  · exact ⟨hids, hbound, href⟩
  · refine ⟨hids, hbound, ?_⟩
    intro i hi
    rcases List.mem_append.mp hi with hold | hnewi
    · exact href i hold
    · rw [List.mem_singleton] at hnewi
      subst hnewi
      cases hf : s.artifacts.find?
          (fun r => r.group_id == idx.groupID && r.artifact_id == idx.artifactID) with
      | none =>
        left
        show lookupArtifactId s idx.groupID idx.artifactID = none
        unfold lookupArtifactId
        rw [hf]
        rfl
      | some r =>
        right
        refine ⟨r, List.mem_of_find?_eq_some hf, ?_⟩
        show lookupArtifactId s idx.groupID idx.artifactID = some r.id
        unfold lookupArtifactId
        rw [hf]
        rfl

theorem wfDB_foldl_insertIndexRow (s : DBState) (B : List Index) (h : wfDB s) :
    wfDB (B.foldl insertIndexRow s) := by
  induction B generalizing s with
  | nil => exact h
  | cons j rest ih =>
    simp only [List.foldl_cons]
    exact ih _ (wfDB_insertIndexRow s j h)

/-- Every state the engine can reach from the initial database is
well-formed, which justifies the well-formedness hypothesis of the amended
round-trip statement. -/
theorem wfDB_insertIndexes (s : DBState) (B : List Index) (h : wfDB s) :
    wfDB (insertIndexes s B) := by
  unfold insertIndexes
  split
  · exact h
  · exact wfDB_foldl_insertIndexRow _ B (wfDB_insertArtifacts s B h)

/-- C9 is false as stated: `c9New` (a 20-byte sha1 absent from the database)
is inserted into a database that already holds `c9Old` under the same
`(groupId, artifactId)` pair; `SelectIndexByArtifactIDAndGroupID("lib",
"org.example")` then returns the pre-existing `c9Old` row, not the inserted
record. -/
theorem c9_counterexample :
    (∀ r ∈ (insertIndexes emptyDB [c9Old]).indices, r.sha1 ≠ c9New.sha1) ∧
    c9New.sha1.length = 20 ∧
    selectIndexByArtifactIDAndGroupID (insertIndexes (insertIndexes emptyDB [c9Old]) [c9New])
        c9New.artifactID c9New.groupID ≠ .ok c9New := by decide

/-- C9 amended: an Index with a 20-byte sha1 inserted via `InsertIndexes`
into a database containing no row with that sha1 is retrieved by
`SelectIndexBySha1` on that hash with all its coordinate fields; and —
the amendment forced by `c9_counterexample` — provided the database also
contains no joined row for its `(groupId, artifactId)` pair,
`SelectIndexByArtifactIDAndGroupID` on that pair retrieves it too.
Well-formedness (`wfDB`) holds for every engine-reachable state by
`wfDB_insertIndexes`. -/
theorem c9_amended_round_trip (s : DBState) (idx : Index) (q : String)
    (hwf : wfDB s)
    (hlen : idx.sha1.length = 20)
    (hq : hexDecode q = some idx.sha1)
    (hsha : ∀ r ∈ s.indices, r.sha1 ≠ idx.sha1)
    (hpair : ∀ r ∈ joinRows s,
      ¬(r.groupID = idx.groupID ∧ r.artifactID = idx.artifactID)) :
    selectIndexBySha1 (insertIndexes s [idx]) q = .ok idx ∧
    selectIndexByArtifactIDAndGroupID (insertIndexes s [idx]) idx.artifactID idx.groupID =
      .ok idx := by
  obtain ⟨aRow, hg, ha, hmem, hlook, huniq, hjoin⟩ := insertArtifactRow_setup s idx hwf
  have hins : insertIndexes s [idx] = insertIndexRow (insertArtifactRow s idx) idx := rfl
  have hskip : sha1Mem (insertArtifactRow s idx) idx.sha1 = false := by
    rw [sha1Mem_congr_indices _ s (insertArtifactRow_indices s idx)]
    rw [sha1Mem, List.any_eq_false]
    intro r hr
    simp [hsha r hr]
  have hrow : insertIndexes s [idx] =
      { artifacts := (insertArtifactRow s idx).artifacts,
        indices := (insertArtifactRow s idx).indices ++
          [⟨some aRow.id, idx.version, idx.sha1, idx.archiveType⟩],
        nextId := (insertArtifactRow s idx).nextId } := by
    rw [hins]
    unfold insertIndexRow
    rw [hskip, hlook]
    simp
  have hIdxEq : (⟨aRow.group_id, aRow.artifact_id, idx.version, idx.sha1, idx.archiveType⟩ :
      Index) = idx := by
    rw [hg, ha]
  have hB : joinOne (insertArtifactRow s idx).artifacts
      ⟨some aRow.id, idx.version, idx.sha1, idx.archiveType⟩ = [idx] := by
    unfold joinOne
    have hsingle := filterMap_join_single (insertArtifactRow s idx).artifacts aRow
      (fun b => ⟨b.group_id, b.artifact_id, idx.version, idx.sha1, idx.archiveType⟩)
      hmem huniq
    simp only [] at hsingle
    rw [hIdxEq] at hsingle
    exact hsingle
  have hjr : joinRows (insertIndexes s [idx]) = joinRows s ++ [idx] := by
    rw [hrow, joinRows_eq_flatMap_joinOne]
    show ((insertArtifactRow s idx).indices ++
        [(⟨some aRow.id, idx.version, idx.sha1, idx.archiveType⟩ : IndexRow)]).flatMap
        (joinOne (insertArtifactRow s idx).artifacts) = joinRows s ++ [idx]
    rw [List.flatMap_append]
    have hA : (insertArtifactRow s idx).indices.flatMap
        (joinOne (insertArtifactRow s idx).artifacts) = joinRows s := by
      rw [insertArtifactRow_indices]
      rw [flatMap_congr_mem s.indices _ _ hjoin]
      rfl
    have hBfull :
        ([(⟨some aRow.id, idx.version, idx.sha1, idx.archiveType⟩ : IndexRow)]).flatMap
          (joinOne (insertArtifactRow s idx).artifacts) = [idx] := by
      rw [List.flatMap_cons, List.flatMap_nil, List.append_nil]
      exact hB
    rw [hA, hBfull]
  have hpre1 : (joinRows s).find? (fun r => r.sha1 == idx.sha1) = none := by
    rw [List.find?_eq_none]
    intro r hr
    obtain ⟨i, hi, hs⟩ := joinRows_sha1_of_mem s r hr
    simp [hs, hsha i hi]
  have hfind1 : (joinRows (insertIndexes s [idx])).find? (fun r => r.sha1 == idx.sha1) =
      some idx := by
    rw [hjr, find?_append_of_none _ _ _ hpre1, List.find?_cons_of_pos _ (by simp)]
  have hpre2 : (joinRows s).find?
      (fun r => r.groupID == idx.groupID && r.artifactID == idx.artifactID) = none := by
    rw [List.find?_eq_none]
    intro r hr
    simp only [Bool.and_eq_true, beq_iff_eq, Bool.not_eq_true, Bool.and_eq_false_iff]
    have hcon := hpair r hr
    by_contra hb
    exact hcon hb
  have hfind2 : (joinRows (insertIndexes s [idx])).find?
      (fun r => r.groupID == idx.groupID && r.artifactID == idx.artifactID) = some idx := by
    rw [hjr, find?_append_of_none _ _ _ hpre2, List.find?_cons_of_pos _ (by simp)]
  constructor
  · have hstep : selectIndexBySha1 (insertIndexes s [idx]) q =
        match (joinRows (insertIndexes s [idx])).find? (fun r => r.sha1 == idx.sha1) with
        | some r => .ok r
        | none => .ok zeroIndex := by
      unfold selectIndexBySha1
      rw [hq]
    rw [hstep, hfind1]
  · unfold selectIndexByArtifactIDAndGroupID
    rw [hfind2]

theorem c9_amended_round_trip_witness :
    (wfDB emptyDB ∧ c9New.sha1.length = 20 ∧
      hexDecode "0202020202020202020202020202020202020202" = some c9New.sha1 ∧
      (∀ r ∈ emptyDB.indices, r.sha1 ≠ c9New.sha1) ∧
      (∀ r ∈ joinRows emptyDB,
        ¬(r.groupID = c9New.groupID ∧ r.artifactID = c9New.artifactID))) ∧
    selectIndexBySha1 (insertIndexes emptyDB [c9New])
        "0202020202020202020202020202020202020202" = .ok c9New ∧
    selectIndexByArtifactIDAndGroupID (insertIndexes emptyDB [c9New])
        c9New.artifactID c9New.groupID = .ok c9New :=
  ⟨⟨by decide, by decide, by decide, by decide, by decide⟩,
    c9_amended_round_trip emptyDB c9New "0202020202020202020202020202020202020202"
      (by decide) (by decide) (by decide) (by decide) (by decide)⟩
